import Mathlib

/-!
# Verification of the cubbychat backend core (src/backend/main.go)

A shallow embedding of the readiness state machine, generation prober,
model fetcher, stream relay and websocket connection handler of
`src/backend/main.go`, together with theorems settling the frozen claims
about the natural-language specification.

Network interactions (HTTP calls to the upstream inference service, the
websocket peer) are modelled as explicit inputs: each upstream call's
outcome is a parameter, and the websocket sink is a function from the
index of a write to whether that write succeeds.
-/

namespace CubbyChat

/-! ## Data model (structs of main.go) -/

/-- `OllamaStreamResponse` of main.go: one decoded line of the streaming
generation body (`{response, done}`). -/
structure OllamaStreamResponse where
  response : String
  done : Bool
deriving DecidableEq, Repr

/-- One model entry of the `/api/tags` listing (`OllamaModel` of main.go);
only the `name` field is ever read by the backend. -/
structure OllamaModel where
  name : String
deriving DecidableEq, Repr

/-! ## Stream relay (`streamOllamaResponse`)

The upstream body is a list of raw lines (what `bufio.Scanner` yields);
each line is decoded by `parseStreamLine`, the embedding of
`json.Unmarshal` into `OllamaStreamResponse` for the newline-delimited
generation stream.  The websocket sink is `sink : Nat → Bool`: whether
the n-th chunk write (`conn.WriteMessage`) succeeds. -/

/-- Consume an expected literal character sequence; `none` when the input
does not start with it. -/
def dropLit : List Char → List Char → Option (List Char)
  | [], cs => some cs
  | _, [] => none
  | p :: ps, c :: cs => if c = p then dropLit ps cs else none

/-- Read a JSON string body up to the closing quote, returning the content
and the remainder after the quote. -/
def readStr : List Char → Option (List Char × List Char)
  | [] => none
  | c :: cs =>
    if c = '"' then some ([], cs)
    else (readStr cs).map fun r => (c :: r.1, r.2)

/-- Decode one line of the streaming body, as `json.Unmarshal` does for
the canonical upstream encoding `\x7b"response":"…","done":…\x7d`;
`none` models an unmarshal error. -/
def parseStreamLine (s : String) : Option OllamaStreamResponse :=
  match dropLit ("\x7b\"response\":\"".data) s.data with
  | none => none
  | some r1 =>
    match readStr r1 with
    | none => none
    | some (text, r2) =>
      if r2 = (",\"done\":false\x7d".data) then some ⟨String.mk text, false⟩
      else if r2 = (",\"done\":true\x7d".data) then some ⟨String.mk text, true⟩
      else none

/-- Result of one `streamOllamaResponse` call: the payloads of the
`conn.WriteMessage` calls made, in order; the argument of the final
`saveMessage("AI", …)` call (`none` when that call is not reached); and
whether the loop ended because a chunk write failed. -/
structure RelayResult where
  writes : List String
  persisted : Option String
  writeFailed : Bool
deriving DecidableEq, Repr

/-- The scan loop of `streamOllamaResponse` (main.go lines 194-212) over
the remaining lines: skip unparsable lines, write each parsed chunk's
text to the sink (stopping on a failed write without accumulating it),
accumulate the text, stop after a `done` chunk.  Returns the writes made,
the accumulated `fullResponse`, and the failed-write flag.  The sink is
re-indexed from 0 at each step (`fun i => sink (i+1)` shifts it). -/
def relayRun (sink : Nat → Bool) : List String → List String × String × Bool
  | [] => ([], "", false)
  | line :: rest =>
    match parseStreamLine line with
    | none => relayRun sink rest
    | some c =>
      if sink 0 then
        if c.done then ([c.response], c.response, false)
        else
          let r := relayRun (fun i => sink (i + 1)) rest
          (c.response :: r.1, c.response ++ r.2.1, r.2.2)
      else ([c.response], "", true)

/-- Outcome of the initial streaming generation call: a transport error
(resty `err != nil`), or a response whose body scans into `lines`. -/
inductive GenCallResult where
  | connError
  | body (lines : List String)

/-- `streamOllamaResponse` of main.go: on a transport error it writes the
fixed apology and returns before reaching `saveMessage`; otherwise it runs
the scan loop and always saves the accumulated text as the AI message. -/
def streamOllamaResponse (call : GenCallResult) (sink : Nat → Bool) : RelayResult :=
  match call with
  | .connError => ⟨["Error processing request"], none, false⟩
  | .body lines =>
    let r := relayRun sink lines
    ⟨r.1, some r.2.1, r.2.2⟩

/-! ### Chunk-level view of the relay loop -/

/-- The relay loop over already-decoded chunks. -/
def processChunks (sink : Nat → Bool) : List OllamaStreamResponse → List String × String × Bool
  | [] => ([], "", false)
  | c :: rest =>
    if sink 0 then
      if c.done then ([c.response], c.response, false)
      else
        let r := processChunks (fun i => sink (i + 1)) rest
        (c.response :: r.1, c.response ++ r.2.1, r.2.2)
    else ([c.response], "", true)

/-- The chunks the loop consumes when no write fails: everything up to and
including the first `done` chunk. -/
def takeThroughDone : List OllamaStreamResponse → List OllamaStreamResponse
  | [] => []
  | c :: rest => if c.done then [c] else c :: takeThroughDone rest

/-- Concatenation of a list of strings. -/
def strConcat : List String → String
  | [] => ""
  | s :: rest => s ++ strConcat rest

theorem relayRun_eq_processChunks (sink : Nat → Bool) (lines : List String) :
    relayRun sink lines = processChunks sink (lines.filterMap parseStreamLine) := by
  induction lines generalizing sink with
  | nil => rfl
  | cons line rest ih =>
    simp only [relayRun, List.filterMap_cons]
    cases h : parseStreamLine line with
    | none => exact ih sink
    | some c =>
      simp only [processChunks]
      by_cases hs : sink 0 = true
      · simp only [hs, if_true]
        by_cases hd : c.done = true
        · simp [hd]
        · simp only [Bool.not_eq_true] at hd
          simp [hd, ih]
      · simp only [Bool.not_eq_true] at hs
        simp [hs]

theorem str_append_empty (s : String) : s ++ "" = s := by
  apply String.ext
  rw [String.data_append]
  simp

theorem processChunks_allOk (cs : List OllamaStreamResponse) :
    processChunks (fun _ => true) cs =
      ((takeThroughDone cs).map OllamaStreamResponse.response,
       strConcat ((takeThroughDone cs).map OllamaStreamResponse.response),
       false) := by
  induction cs with
  | nil => rfl
  | cons c rest ih =>
    simp only [processChunks, takeThroughDone]
    by_cases hd : c.done = true
    · simp [hd, strConcat, str_append_empty]
    · simp only [Bool.not_eq_true] at hd
      simp [hd, ih, strConcat]

/-! ## ModelDescriptor fetcher (`getAvailableModel`)

One HTTP GET of `/api/tags`.  Its outcome is either a transport error or
a reply with a status code and a body; the body either fails
`json.Unmarshal` or parses into a model list. -/

/-- Parse outcome of a `/api/tags` body. -/
inductive FetchBody where
  | malformed
  | object (models : List OllamaModel)

/-- Outcome of the `/api/tags` HTTP call. -/
inductive FetchHttp where
  | transportError
  | reply (status : Nat) (body : FetchBody)

/-- Failure kinds of the fetcher (the `fmt.Errorf` cases of
`getAvailableModel`). -/
inductive FetchErr where
  | connErr
  | apiErr
  | parseErr
  | noModelsErr
deriving DecidableEq, Repr

/-- `getAvailableModel` of main.go: returns the first listed model's name
or a typed failure, together with the `modelStatus` values it assigns, in
order (`"checking_models"` before the call, then the outcome tag). -/
def getAvailableModel (h : FetchHttp) : Except FetchErr String × List String :=
  match h with
  | .transportError => (.error .connErr, ["checking_models", "error_connecting"])
  | .reply status body =>
    if status = 200 then
      match body with
      | .malformed => (.error .parseErr, ["checking_models", "error_parsing"])
      | .object [] => (.error .noModelsErr, ["checking_models", "no_models"])
      | .object (m :: _) => (.ok m.name, ["checking_models", "model_found"])
    else (.error .apiErr, ["checking_models", "error_api"])

/-! ## Generation prober (`testModelGeneration`)

Each attempt is one POST of `/api/generate` with `stream:false`; its
outcome is a transport error or a reply whose body either fails to parse
or is an object with or without a non-null `response` field. -/

/-- Parse outcome of one probe reply body. -/
inductive ProbeBody where
  | malformed
  | object (hasContent : Bool)

/-- Outcome of one probe HTTP call. -/
inductive ProbeHttp where
  | transportError
  | reply (status : Nat) (body : ProbeBody)

/-- The per-attempt failure classification of `testModelGeneration`, in
the code's check order: transport error, then non-200 status (both
terminal tag `"error_generation"`), then unmarshal failure
(`"error_parsing_response"`), then a nil `response` field
(`"error_no_response"`); `none` means the attempt succeeded. -/
def probeAttemptFail : ProbeHttp → Option String
  | .transportError => some "error_generation"
  | .reply status body =>
    if status = 200 then
      match body with
      | .malformed => some "error_parsing_response"
      | .object false => some "error_no_response"
      | .object true => none
    else some "error_generation"

/-- Observable outcome of one `testModelGeneration` run: how many
generation calls it made, how many 2-second inter-attempt sleeps it
performed, and `none` on success or the terminal `modelStatus` tag it
assigned on exhaustion. -/
structure ProbeRun where
  calls : Nat
  sleeps : Nat
  result : Option String
deriving DecidableEq, Repr

/-- The attempt loop of `testModelGeneration` (main.go lines 410-474):
`attempt` is the 1-based attempt counter, the fuel is the number of loop
iterations still permitted by `testAttempt <= maxTestRetries`.  On a
failed attempt it sleeps and retries while `attempt < maxR`, and
otherwise reports the final attempt's failure tag; fuel 0 is the
fall-through after the loop (status `"error_generation"`). -/
def probeGo (outcomes : Nat → ProbeHttp) (maxR : Nat) (attempt : Nat) : Nat → ProbeRun
  | 0 => ⟨0, 0, some "error_generation"⟩
  | fuel + 1 =>
    match probeAttemptFail (outcomes attempt) with
    | none => ⟨1, 0, none⟩
    | some tag =>
      if attempt < maxR then
        let r := probeGo outcomes maxR (attempt + 1) fuel
        ⟨r.calls + 1, r.sleeps + 1, r.result⟩
      else ⟨1, 0, some tag⟩

/-- `testModelGeneration` of main.go with attempt ceiling `maxR`
(`maxTestRetries`), the outcome of the i-th attempt given by
`outcomes i`. -/
def testModelGeneration (outcomes : Nat → ProbeHttp) (maxR : Nat) : ProbeRun :=
  probeGo outcomes maxR 1 maxR

/-- `maxTestRetries` of main.go. -/
def maxTestRetries : Nat := 100

/-- `maxRetries` of main.go (the readiness check's outer ceiling). -/
def maxRetries : Nat := 100

/-! ## Readiness state machine (`checkModelReady`)

The environment `env` gives, for each outer attempt number, the outcome
of that attempt's `/api/tags` call and the outcomes of its probe
attempts.  The run result collects the final values of the package-level
variables `modelStatus`, `modelReady`, `modelNeverReady`, `ollamaModel`,
the ordered list of `modelStatus` assignments the run makes, and the
ordered list of assignments to `ollamaModel`. -/

/-- Final state and observable trace of one `checkModelReady` run. -/
structure RunOut where
  status : String
  trace : List String
  ready : Bool
  neverReady : Bool
  model : String
  modelWrites : List String
deriving DecidableEq, Repr

/-- The retry loop of `checkModelReady` (main.go lines 497-526):
`attempt` is the 1-based outer attempt counter, `model`/`writes` the
current value and assignment history of `ollamaModel`, the fuel the
iterations still permitted by `attempt <= maxRetries`.  Each iteration
emits `retry_n` when `attempt > 1`, runs the fetcher, and on fetch
success assigns `ollamaModel` and runs the prober; probe success is
terminal `"ready"`, fuel exhaustion is terminal `"failed"`. -/
def checkGo (env : Nat → FetchHttp × (Nat → ProbeHttp)) (attempt : Nat)
    (model : String) (writes : List String) : Nat → RunOut
  | 0 => ⟨"failed", ["failed"], false, false, model, writes⟩
  | fuel + 1 =>
    match (getAvailableModel (env attempt).1).1 with
    | .error _ =>
      let r := checkGo env (attempt + 1) model writes fuel
      { r with trace := (if 1 < attempt then ["retry_" ++ toString attempt] else []) ++
          (getAvailableModel (env attempt).1).2 ++ r.trace }
    | .ok name =>
      match (testModelGeneration (env attempt).2 maxTestRetries).result with
      | some tag =>
        let r := checkGo env (attempt + 1) name (writes ++ [name]) fuel
        { r with trace := (if 1 < attempt then ["retry_" ++ toString attempt] else []) ++
            (getAvailableModel (env attempt).1).2 ++ ["testing_generation", tag] ++ r.trace }
      | none =>
        ⟨"ready", (if 1 < attempt then ["retry_" ++ toString attempt] else []) ++
          (getAvailableModel (env attempt).1).2 ++ ["testing_generation", "ready"], true,
          false, name, writes ++ [name]⟩

/-- `checkModelReady` of main.go: when Ollama is disabled it marks the
service permanently unavailable (`modelNeverReady := true`, status
`"disabled"`) and returns; otherwise it emits `"starting"` and runs the
retry loop from attempt 1 with `ollamaModel` unset. -/
def checkModelReady (enabled : Bool) (env : Nat → FetchHttp × (Nat → ProbeHttp)) : RunOut :=
  if enabled then
    let r := checkGo env 1 "" [] maxRetries
    { r with trace := "starting" :: r.trace }
  else ⟨"disabled", ["disabled"], false, true, "", []⟩

/-- The whole process-lifetime sequence of `modelStatus` values: the
package-level initializer `"initializing"` followed by every assignment
`checkModelReady` makes. -/
def fullTrace (enabled : Bool) (env : Nat → FetchHttp × (Nat → ProbeHttp)) : List String :=
  "initializing" :: (checkModelReady enabled env).trace

/-! ## Connection handler (`handleWebSocket`) -/

/-- `waitingMessages` of main.go. -/
def waitingMessages : List String :=
  ["🦥 Hold on! The AI is still having its morning coffee...",
   "🚀 The model is warming up its neural networks...",
   "🧠 Please wait, the AI is doing some mental push-ups...",
   "🎮 The AI is still loading, maybe it's stuck on a loading screen?",
   "☕ Brewing intelligence... This may take a moment!",
   "🏃 The neurons are still jogging to their positions...",
   "📚 The AI is speed-reading the entire internet, be right with you!",
   "🧘 The model is meditating to achieve consciousness...",
   "🔌 Still downloading wisdom from the cloud...",
   "🎪 The AI circus is still setting up its tent!"]

/-- `noAIMessages` of main.go. -/
def noAIMessages : List String :=
  ["🤖 Sorry, our AI took the day off. It's probably at the beach somewhere...",
   "🎭 The AI is unavailable. It's currently pursuing its dream of becoming a Broadway star.",
   "🏖️ AI.exe not found. Did you check if it went on vacation?",
   "🎨 No AI here! The silicon brain decided to become an artist instead.",
   "🚫 AI is MIA. Last seen contemplating the meaning of consciousness.",
   "🎪 The AI has left the building. Elvis style.",
   "🌙 AI is offline. Probably dreaming of electric sheep.",
   "📵 No AI signal detected. Maybe it's in airplane mode?",
   "🎓 The AI is unavailable - it went back to school to study philosophy.",
   "🧳 AI is out of office. Return date: undefined."]

/-- `table[rand.Intn(len(table))]`: the random draw is modelled by an
arbitrary natural `i`, reduced modulo the table length. -/
def pick (l : List String) (i : Nat) : String :=
  match l with
  | [] => ""
  | a :: as => (a :: as).get ⟨i % (a :: as).length, Nat.mod_lt _ (Nat.succ_pos _)⟩

/-- Observable effects of processing one inbound websocket message: the
payloads written to the connection, the `saveMessage` calls made
(sender, message) in order, and whether `streamOllamaResponse` was
invoked. -/
structure TurnOut where
  sent : List String
  saved : List (String × String)
  relayInvoked : Bool
deriving DecidableEq, Repr

/-- One iteration of the `handleWebSocket` read loop (main.go lines
262-300), given the values of `modelNeverReady` and `modelReady` at the
time the message is processed, the random draw `idx`, and the behaviour
`relayFn` of `streamOllamaResponse` for this turn (its argument is the
prompt).  The user message is saved first; then either a no-AI message,
a waiting message, or the relay. -/
def handleMessage (neverReady ready : Bool) (idx : Nat)
    (relayFn : String → RelayResult) (msg : String) : TurnOut :=
  if neverReady then
    let m := pick noAIMessages idx
    ⟨[m], [("User", msg), ("AI", m)], false⟩
  else if !ready then
    let m := pick waitingMessages idx
    ⟨[m], [("User", msg), ("AI", m)], false⟩
  else
    let r := relayFn msg
    ⟨r.writes, ("User", msg) ::
      (match r.persisted with | some t => [("AI", t)] | none => []), true⟩

/-- The `handleWebSocket` read loop over a whole inbound message
sequence: the t-th message is processed with draw `idxs t` and relay
behaviour `relayFn t`; one `TurnOut` per inbound message. -/
def handleWebSocket (neverReady ready : Bool) (idxs : Nat → Nat)
    (relayFn : Nat → String → RelayResult) : List String → Nat → List TurnOut
  | [], _ => []
  | m :: rest, t =>
    handleMessage neverReady ready (idxs t) (relayFn t) m ::
      handleWebSocket neverReady ready idxs relayFn rest (t + 1)

/-! ## The spec's ReadinessState enumeration

Modelled from the spec: §3 lists the ReadinessState tags `Initializing`,
`CheckingModels`, `ModelFound(name)`, `TestingGeneration`,
`RetryAttempt(n)`, `Ready(name)`, `Disabled`, `Failed`, `ErrorConnecting`,
`ErrorAPI`, `ErrorParsing`, `NoModelsAvailable`, `ErrorGeneration`,
`ErrorNoResponseContent`; rendered here as the status strings of the
status surface (§6), with `ErrorParsing` covering both the whole-body and
the per-probe parse failure strings (§7's `DecodeError`). -/
def specTagStrings : List String :=
  ["initializing", "checking_models", "model_found", "testing_generation",
   "ready", "disabled", "failed", "error_connecting", "error_api",
   "error_parsing", "error_parsing_response", "no_models",
   "error_generation", "error_no_response"]

/-- Modelled from the spec: a status string denotes a tag of the §3
ReadinessState enumeration. -/
def IsSpecTag (s : String) : Prop :=
  s ∈ specTagStrings ∨ ∃ n : Nat, s = "retry_" ++ toString n

/-- The retry-tag segment emitted at the start of the n-th outer
iteration: empty on the first attempt. -/
def retryTag (n : Nat) : List String :=
  if 1 < n then ["retry_" ++ toString n] else []

/-- Modelled from the spec: the claimed visit order of the readiness
cycle after `Initializing` (§8 / §4.3), as the trace of the retry loop
started at attempt `n`.  Each iteration emits its retry tag, then
`CheckingModels`, then either a fetch-error tag (and the loop
continues), or `ModelFound` followed by `TestingGeneration` and then
either terminal `Ready` (the trace ends) or a probe-error tag (and the
loop continues); exhausting the retry ceiling ends the trace at
`Failed`. -/
inductive CycleTrace : Nat → List String → Prop where
  | failed (n : Nat) : CycleTrace n ["failed"]
  | fetchErr (n : Nat) (tag : String) (rest : List String) :
      tag ∈ (["error_connecting", "error_api", "error_parsing",
        "no_models"] : List String) →
      CycleTrace (n + 1) rest →
      CycleTrace n (retryTag n ++ "checking_models" :: tag :: rest)
  | ready (n : Nat) :
      CycleTrace n (retryTag n ++
        ["checking_models", "model_found", "testing_generation", "ready"])
  | probeErr (n : Nat) (tag : String) (rest : List String) :
      tag ∈ (["error_generation", "error_parsing_response",
        "error_no_response"] : List String) →
      CycleTrace (n + 1) rest →
      CycleTrace n (retryTag n ++ "checking_models" :: "model_found" ::
        "testing_generation" :: tag :: rest)

/-! ## Relay lemmas -/

theorem relayRun_skip (bad : String) (hbad : parseStreamLine bad = none) :
    ∀ (ls1 ls2 : List String) (sink : Nat → Bool),
      relayRun sink (ls1 ++ bad :: ls2) = relayRun sink (ls1 ++ ls2) := by
  intro ls1
  induction ls1 with
  | nil =>
    intro ls2 sink
    simp only [List.nil_append, relayRun, hbad]
  | cons l ls1 ih =>
    intro ls2 sink
    simp only [List.cons_append, relayRun]
    cases h : parseStreamLine l with
    | none => exact ih ls2 sink
    | some c =>
      by_cases hs : sink 0 = true
      · simp only [hs, if_true]
        by_cases hd : c.done = true
        · simp [hd]
        · simp only [Bool.not_eq_true] at hd
          simp [hd, ih]
      · simp only [Bool.not_eq_true] at hs
        simp [hs]

theorem processChunks_failAt :
    ∀ (k : Nat) (cs : List OllamaStreamResponse),
      k < cs.length → (∀ c ∈ cs.take k, c.done = false) →
      processChunks (fun i => decide (i < k)) cs =
        ((cs.take (k + 1)).map OllamaStreamResponse.response,
         strConcat ((cs.take k).map OllamaStreamResponse.response),
         true) := by
  intro k
  induction k with
  | zero =>
    intro cs hlen _
    match cs, hlen with
    | c :: t, _ =>
      simp [processChunks, List.take, strConcat]
  | succ k ih =>
    intro cs hlen hdone
    match cs, hlen with
    | c :: t, hlen =>
      have hc : c.done = false := hdone c (by simp [List.take])
      have hshift : (fun i => decide (i + 1 < k + 1)) = (fun i => decide (i < k)) := by
        funext i
        simp [Nat.add_lt_add_iff_right]
      have ht : k < t.length := by
        simpa [Nat.succ_lt_succ_iff] using hlen
      have hdt : ∀ x ∈ t.take k, x.done = false := by
        intro x hx
        exact hdone x (by simp [List.take, hx])
      simp only [processChunks, hc, decide_eq_true_eq, Nat.zero_lt_succ, if_true,
        Bool.false_eq_true, hshift, ih t ht hdt]
      simp [List.take, strConcat]

/--
**C3** (corrected): counterexample to the claim as stated.  For the
upstream line sequence `\x7b"response":"Hel","done":false\x7d`,
`\x7b"response":"lo","done":false\x7d`, `\x7b"response":"","done":true\x7d`,
the Stream Relay's writes to the sink are NOT exactly `"Hel"`, `"lo"`:
the code writes each parsed chunk's text before checking `done`, so the
final chunk's empty text is also written.
-/
theorem c3_counterexample :
    (streamOllamaResponse (.body
        ["\x7b\"response\":\"Hel\",\"done\":false\x7d",
         "\x7b\"response\":\"lo\",\"done\":false\x7d",
         "\x7b\"response\":\"\",\"done\":true\x7d"]) (fun _ => true)).writes
      ≠ ["Hel", "lo"] := by
  decide

/--
**C3** (amended): for the given upstream line sequence, the sink receives
exactly `"Hel"`, `"lo"`, and then the final done-chunk's empty text, in
that order, and the relay terminates with accumulated full text
`"Hello"`; in general, with a sink that accepts every write, the chunk
texts are forwarded strictly in upstream arrival order — the writes are
exactly the texts of the parsed chunks up to and including the first
`done` chunk, and the accumulated text is their concatenation.
-/
theorem c3_relay_order :
    (streamOllamaResponse (.body
        ["\x7b\"response\":\"Hel\",\"done\":false\x7d",
         "\x7b\"response\":\"lo\",\"done\":false\x7d",
         "\x7b\"response\":\"\",\"done\":true\x7d"]) (fun _ => true)
      = ⟨["Hel", "lo", ""], some "Hello", false⟩) ∧
    (∀ lines : List String,
      streamOllamaResponse (.body lines) (fun _ => true) =
        ⟨(takeThroughDone (lines.filterMap parseStreamLine)).map OllamaStreamResponse.response,
         some (strConcat ((takeThroughDone (lines.filterMap parseStreamLine)).map
            OllamaStreamResponse.response)),
         false⟩) := by
  constructor
  · decide
  · intro lines
    simp [streamOllamaResponse, relayRun_eq_processChunks, processChunks_allOk]

/--
**C6** (confirmed): a line that fails to parse, interleaved anywhere in
the upstream stream (in particular a single malformed line between two
valid lines), is skipped without aborting the relay: the relay's entire
observable behaviour — writes, accumulated full text, persistence — is
the same as if the malformed line were absent, so every valid chunk
before and after it is still forwarded in order and the malformed line
contributes nothing to the accumulated text.
-/
theorem c6_malformed_line_skipped (bad : String) (hbad : parseStreamLine bad = none)
    (ls1 ls2 : List String) (sink : Nat → Bool) :
    streamOllamaResponse (.body (ls1 ++ bad :: ls2)) sink =
      streamOllamaResponse (.body (ls1 ++ ls2)) sink := by
  simp [streamOllamaResponse, relayRun_skip bad hbad]

/-- Witness for C6 at a concrete input: the malformed line `"oops"`
between the two valid lines changes nothing. -/
theorem c6_witness :
    streamOllamaResponse (.body
        ["\x7b\"response\":\"Hel\",\"done\":false\x7d", "oops",
         "\x7b\"response\":\"lo\",\"done\":true\x7d"]) (fun _ => true) =
      streamOllamaResponse (.body
        ["\x7b\"response\":\"Hel\",\"done\":false\x7d",
         "\x7b\"response\":\"lo\",\"done\":true\x7d"]) (fun _ => true) :=
  c6_malformed_line_skipped "oops" (by decide)
    ["\x7b\"response\":\"Hel\",\"done\":false\x7d"]
    ["\x7b\"response\":\"lo\",\"done\":true\x7d"] (fun _ => true)

/--
**C7** (confirmed): if the sink accepts the first `k` chunk writes and
rejects the next one (the client disconnected), the relay terminates at
that write: the write attempts are exactly the first `k + 1` chunk texts,
and the function still returns normally — `streamOllamaResponse` has no
error result at all, and the text accumulated from the `k` chunks
forwarded before the failure is still handed to `saveMessage` as the AI
output (`persisted` is `some` of exactly that text).
-/
theorem c7_disconnect_persists_prefix (lines : List String) (k : Nat)
    (hlen : k < (lines.filterMap parseStreamLine).length)
    (hdone : ∀ c ∈ (lines.filterMap parseStreamLine).take k, c.done = false) :
    streamOllamaResponse (.body lines) (fun i => decide (i < k)) =
      ⟨(((lines.filterMap parseStreamLine).take (k + 1)).map OllamaStreamResponse.response),
       some (strConcat (((lines.filterMap parseStreamLine).take k).map
          OllamaStreamResponse.response)),
       true⟩ := by
  simp [streamOllamaResponse, relayRun_eq_processChunks,
    processChunks_failAt k _ hlen hdone]

/-- Witness for C7: the client disconnects before the second chunk write;
`"Hel"` was forwarded and is persisted, the failed write attempt of
`"lo"` is the last, and the relay returns normally. -/
theorem c7_witness :
    streamOllamaResponse (.body
        ["\x7b\"response\":\"Hel\",\"done\":false\x7d",
         "\x7b\"response\":\"lo\",\"done\":false\x7d"]) (fun i => decide (i < 1)) =
      ⟨["Hel", "lo"], some "Hel", true⟩ :=
  c7_disconnect_persists_prefix
    ["\x7b\"response\":\"Hel\",\"done\":false\x7d",
     "\x7b\"response\":\"lo\",\"done\":false\x7d"] 1 (by decide) (by decide)

/-! ## Prober lemmas -/

theorem probeGo_allFail (outcomes : Nat → ProbeHttp) (N : Nat)
    (hf : ∀ i, probeAttemptFail (outcomes i) ≠ none) :
    ∀ (fuel attempt : Nat), attempt + fuel = N + 1 → 1 ≤ fuel →
      probeGo outcomes N attempt fuel = ⟨fuel, fuel - 1, probeAttemptFail (outcomes N)⟩ := by
  intro fuel
  induction fuel with
  | zero => intro attempt _ h1; omega
  | succ f ih =>
    intro attempt hsum _
    simp only [probeGo]
    cases hp : probeAttemptFail (outcomes attempt) with
    | none => exact absurd hp (hf attempt)
    | some tag =>
      match f, hsum with
      | 0, hsum =>
        have ha : attempt = N := by omega
        subst ha
        have : ¬(attempt < attempt) := by omega
        simp only [this, if_false]
        rw [← hp]
      | f + 1, hsum =>
        have hlt : attempt < N := by omega
        simp only [hlt, if_true, ih (attempt + 1) (by omega) (by omega),
          Nat.add_sub_cancel]

/--
**C4** (confirmed): run with attempt ceiling `N ≥ 1` and every attempt
failing, the Generation Prober performs exactly `N` generation calls and
exactly `N - 1` inter-attempt delays (none before the first attempt,
none after the last), reports terminal failure, and the terminal status
tag is exactly the failure classification of the final (N-th) attempt:
`"error_generation"` for a transport or HTTP-status failure,
`"error_parsing_response"` for an unparsable body, `"error_no_response"`
for a body without generated content.
-/
theorem c4_prober_counts (N : Nat) (outcomes : Nat → ProbeHttp) (hN : 1 ≤ N)
    (hf : ∀ i, probeAttemptFail (outcomes i) ≠ none) :
    testModelGeneration outcomes N = ⟨N, N - 1, probeAttemptFail (outcomes N)⟩ :=
  probeGo_allFail outcomes N hf N 1 (by omega) hN

/-- Witness for C4: ceiling 3, every attempt a transport error — 3 calls,
2 sleeps, terminal tag `"error_generation"`. -/
theorem c4_witness :
    testModelGeneration (fun _ => ProbeHttp.transportError) 3 =
      ⟨3, 2, some "error_generation"⟩ :=
  c4_prober_counts 3 (fun _ => ProbeHttp.transportError) (by decide)
    (fun _ => (by decide : probeAttemptFail ProbeHttp.transportError ≠ none))

/--
**C8** (confirmed): the ModelDescriptor Fetcher returns the name of the
first entry when the list is non-empty, whatever the rest of the list is
(no ranking), and otherwise fails with the kind determined by the
observed condition — `ConnectionError` on transport failure, `APIError`
on any non-200 status, `ParseError` on a malformed body,
`NoModelsAvailable` on an empty list — each branch assigning the matching
`modelStatus` tag after the initial `"checking_models"`.
-/
theorem c8_fetcher_cases :
    (getAvailableModel .transportError =
      (.error .connErr, ["checking_models", "error_connecting"])) ∧
    (∀ (status : Nat) (body : FetchBody), status ≠ 200 →
      getAvailableModel (.reply status body) =
        (.error .apiErr, ["checking_models", "error_api"])) ∧
    (getAvailableModel (.reply 200 .malformed) =
      (.error .parseErr, ["checking_models", "error_parsing"])) ∧
    (getAvailableModel (.reply 200 (.object [])) =
      (.error .noModelsErr, ["checking_models", "no_models"])) ∧
    (∀ (m : OllamaModel) (rest : List OllamaModel),
      getAvailableModel (.reply 200 (.object (m :: rest))) =
        (.ok m.name, ["checking_models", "model_found"])) := by
  refine ⟨rfl, ?_, rfl, rfl, fun m rest => rfl⟩
  intro status body h
  simp [getAvailableModel, h]

/-- Witness for C8: a 500 reply is an `APIError` regardless of body. -/
theorem c8_witness :
    getAvailableModel (.reply 500 .malformed) =
      (.error .apiErr, ["checking_models", "error_api"]) :=
  c8_fetcher_cases.2.1 500 .malformed (by decide)

/-! ## Connection handler lemmas -/

theorem pick_mem (a : String) (as : List String) (i : Nat) :
    pick (a :: as) i ∈ a :: as :=
  List.get_mem _ _ _

/--
**C1** (confirmed): whenever the readiness flag is not `Ready` at the
time an inbound message is processed, the Connection Handler never
invokes the Stream Relay (whatever relay behaviour is plugged in) and
sends exactly one outbound message drawn from the waiting-message table
— or from the unavailable table when permanently unavailable.
-/
theorem c1_not_ready_no_relay (neverReady : Bool) (idx : Nat)
    (relayFn : String → RelayResult) (msg : String) :
    (handleMessage neverReady false idx relayFn msg).relayInvoked = false ∧
    ∃ m, (handleMessage neverReady false idx relayFn msg).sent = [m] ∧
      m ∈ (if neverReady then noAIMessages else waitingMessages) := by
  cases neverReady with
  | true =>
    refine ⟨rfl, pick noAIMessages idx, rfl, ?_⟩
    show pick noAIMessages idx ∈ noAIMessages
    exact pick_mem _ _ idx
  | false =>
    refine ⟨rfl, pick waitingMessages idx, rfl, ?_⟩
    show pick waitingMessages idx ∈ waitingMessages
    exact pick_mem _ _ idx

/--
**C10** (confirmed): when the initial streaming generation call fails
with a transport error, the relay writes exactly the one fixed message
`"Error processing request"` to the sink and returns with no persistence
call; within the handler's turn, the only `saveMessage` call is for the
user message — no AI output is persisted for that turn; and the read loop
goes on to process every further inbound message (one turn per inbound
message, shown also on a concrete two-message run whose every generation
call fails).
-/
theorem c10_transport_error_turn :
    (∀ sink : Nat → Bool,
      streamOllamaResponse .connError sink =
        ⟨["Error processing request"], none, false⟩) ∧
    (∀ (idx : Nat) (msg : String) (sink : Nat → Bool),
      handleMessage false true idx (fun _ => streamOllamaResponse .connError sink) msg =
        ⟨["Error processing request"], [("User", msg)], true⟩) ∧
    (∀ (neverReady ready : Bool) (idxs : Nat → Nat)
        (relayFn : Nat → String → RelayResult) (msgs : List String) (t : Nat),
      (handleWebSocket neverReady ready idxs relayFn msgs t).length = msgs.length) ∧
    (handleWebSocket false true (fun _ => 0)
        (fun _ _ => streamOllamaResponse .connError (fun _ => true)) ["a", "b"] 0 =
      [⟨["Error processing request"], [("User", "a")], true⟩,
       ⟨["Error processing request"], [("User", "b")], true⟩]) := by
  refine ⟨fun _ => rfl, fun _ _ _ => rfl, ?_, rfl⟩
  intro neverReady ready idxs relayFn msgs
  induction msgs with
  | nil => intro t; rfl
  | cons m rest ih =>
    intro t
    have hstep : handleWebSocket neverReady ready idxs relayFn (m :: rest) t =
        handleMessage neverReady ready (idxs t) (relayFn t) m ::
          handleWebSocket neverReady ready idxs relayFn rest (t + 1) := rfl
    rw [hstep, List.length_cons, List.length_cons, ih (t + 1)]

/-! ## Readiness state machine lemmas -/

theorem probeAttemptFail_mem (h : ProbeHttp) :
    probeAttemptFail h = none ∨ probeAttemptFail h = some "error_generation" ∨
    probeAttemptFail h = some "error_parsing_response" ∨
    probeAttemptFail h = some "error_no_response" := by
  cases h with
  | transportError => right; left; rfl
  | reply status body =>
    by_cases hs : status = 200
    · subst hs
      cases body with
      | malformed => right; right; left; rfl
      | object hc => cases hc with
        | true => left; rfl
        | false => right; right; right; rfl
    · right; left; simp [probeAttemptFail, hs]

theorem probeGo_result_mem (o : Nat → ProbeHttp) (maxR : Nat) :
    ∀ (fuel attempt : Nat),
      (probeGo o maxR attempt fuel).result = none ∨
      (probeGo o maxR attempt fuel).result = some "error_generation" ∨
      (probeGo o maxR attempt fuel).result = some "error_parsing_response" ∨
      (probeGo o maxR attempt fuel).result = some "error_no_response" := by
  intro fuel
  induction fuel with
  | zero => intro attempt; right; left; rfl
  | succ f ih =>
    intro attempt
    simp only [probeGo]
    cases hp : probeAttemptFail (o attempt) with
    | none => left; rfl
    | some tag =>
      by_cases hl : attempt < maxR
      · simp only [hl, if_true]
        exact ih (attempt + 1)
      · simp only [hl, if_false]
        rcases probeAttemptFail_mem (o attempt) with h | h | h | h <;> rw [hp] at h
        · exact absurd h (by simp)
        · right; left; rw [← h]
        · right; right; left; rw [← h]
        · right; right; right; rw [← h]

theorem getAvailableModel_trace (f : FetchHttp) :
    ∃ tag, (getAvailableModel f).2 = ["checking_models", tag] ∧
      tag ∈ (["error_connecting", "error_api", "error_parsing", "no_models",
        "model_found"] : List String) := by
  cases f with
  | transportError => exact ⟨"error_connecting", rfl, by decide⟩
  | reply status body =>
    by_cases hs : status = 200
    · subst hs
      cases body with
      | malformed => exact ⟨"error_parsing", rfl, by decide⟩
      | object ms => cases ms with
        | nil => exact ⟨"no_models", rfl, by decide⟩
        | cons m rest => exact ⟨"model_found", rfl, by decide⟩
    · refine ⟨"error_api", ?_, by decide⟩
      simp [getAvailableModel, hs]

theorem retryTag_not_terminal (n : Nat) :
    ("retry_" ++ toString n) ∉ (["ready", "failed", "disabled"] : List String) := by
  intro hmem
  have hd : ∀ w : String, ("retry_" ++ toString n) = w →
      "retry_".data ++ (toString n).data = w.data := by
    intro w hw
    rw [← String.data_append, hw]
  simp only [List.mem_cons, List.not_mem_nil, or_false] at hmem
  rcases hmem with h | h | h
  · have h2 := hd _ h
    rw [show "retry_".data = ['r', 'e', 't', 'r', 'y', '_'] from rfl,
      show "ready".data = ['r', 'e', 'a', 'd', 'y'] from rfl] at h2
    simp only [List.cons_append] at h2
    injection h2 with h3 h4
    injection h4 with h5 h6
    injection h6 with h7 h8
    exact absurd h7 (by decide)
  · have h2 := hd _ h
    rw [show "retry_".data = ['r', 'e', 't', 'r', 'y', '_'] from rfl,
      show "failed".data = ['f', 'a', 'i', 'l', 'e', 'd'] from rfl] at h2
    simp only [List.cons_append] at h2
    injection h2 with h3 h4
    exact absurd h3 (by decide)
  · have h2 := hd _ h
    rw [show "retry_".data = ['r', 'e', 't', 'r', 'y', '_'] from rfl,
      show "disabled".data = ['d', 'i', 's', 'a', 'b', 'l', 'e', 'd'] from rfl] at h2
    simp only [List.cons_append] at h2
    injection h2 with h3 h4
    exact absurd h3 (by decide)


/-- Step equation of `checkGo` when the fetch fails. -/
theorem checkGo_succ_fetchErr (env : Nat → FetchHttp × (Nat → ProbeHttp))
    (attempt : Nat) (model : String) (writes : List String) (fuel : Nat) (e : FetchErr)
    (h : (getAvailableModel (env attempt).1).1 = .error e) :
    checkGo env attempt model writes (fuel + 1) =
      { checkGo env (attempt + 1) model writes fuel with
        trace := (if 1 < attempt then ["retry_" ++ toString attempt] else []) ++
          (getAvailableModel (env attempt).1).2 ++
          (checkGo env (attempt + 1) model writes fuel).trace } := by
  simp only [checkGo]
  rw [h]

/-- Step equation of `checkGo` when the fetch succeeds and the probe
fails terminally. -/
theorem checkGo_succ_probeFail (env : Nat → FetchHttp × (Nat → ProbeHttp))
    (attempt : Nat) (model : String) (writes : List String) (fuel : Nat)
    (name : String) (tag : String)
    (hok : (getAvailableModel (env attempt).1).1 = .ok name)
    (hpr : (testModelGeneration (env attempt).2 maxTestRetries).result = some tag) :
    checkGo env attempt model writes (fuel + 1) =
      { checkGo env (attempt + 1) name (writes ++ [name]) fuel with
        trace := (if 1 < attempt then ["retry_" ++ toString attempt] else []) ++
          (getAvailableModel (env attempt).1).2 ++ ["testing_generation", tag] ++
          (checkGo env (attempt + 1) name (writes ++ [name]) fuel).trace } := by
  simp only [checkGo]
  rw [hok, hpr]

/-- Step equation of `checkGo` when the fetch succeeds and the probe
succeeds: the machine settles in `"ready"`. -/
theorem checkGo_succ_ready (env : Nat → FetchHttp × (Nat → ProbeHttp))
    (attempt : Nat) (model : String) (writes : List String) (fuel : Nat)
    (name : String)
    (hok : (getAvailableModel (env attempt).1).1 = .ok name)
    (hpr : (testModelGeneration (env attempt).2 maxTestRetries).result = none) :
    checkGo env attempt model writes (fuel + 1) =
      ⟨"ready", (if 1 < attempt then ["retry_" ++ toString attempt] else []) ++
        (getAvailableModel (env attempt).1).2 ++ ["testing_generation", "ready"], true,
        false, name, writes ++ [name]⟩ := by
  simp only [checkGo]
  rw [hok, hpr]

theorem checkGo_shape (env : Nat → FetchHttp × (Nat → ProbeHttp)) :
    ∀ (fuel attempt : Nat) (model : String) (writes : List String),
      (checkGo env attempt model writes fuel).neverReady = false ∧
      ((checkGo env attempt model writes fuel).status = "ready" ∨
        (checkGo env attempt model writes fuel).status = "failed") ∧
      ((checkGo env attempt model writes fuel).status = "failed" →
        (checkGo env attempt model writes fuel).ready = false) ∧
      ∃ pre, (checkGo env attempt model writes fuel).trace =
          pre ++ [(checkGo env attempt model writes fuel).status] ∧
        (∀ s ∈ pre, s ∉ (["ready", "failed", "disabled"] : List String)) ∧
        (∀ s ∈ (checkGo env attempt model writes fuel).trace, IsSpecTag s) := by
  intro fuel
  induction fuel with
  | zero =>
    intro attempt model writes
    refine ⟨rfl, Or.inr rfl, fun _ => rfl, [], rfl, by simp, ?_⟩
    intro s hs
    have : s = "failed" := by simpa [checkGo] using hs
    subst this
    left
    decide
  | succ f ih =>
    intro attempt model writes
    obtain ⟨ftag, hftr, hftag⟩ := getAvailableModel_trace (env attempt).1
    have hftag2 : ftag = "error_connecting" ∨ ftag = "error_api" ∨
        ftag = "error_parsing" ∨ ftag = "no_models" ∨ ftag = "model_found" := by
      simpa using hftag
    have hretry : ∀ s ∈ (if 1 < attempt then ["retry_" ++ toString attempt] else []),
        s ∉ (["ready", "failed", "disabled"] : List String) ∧ IsSpecTag s := by
      intro s hs
      by_cases ha : 1 < attempt
      · simp only [ha, if_true, List.mem_singleton] at hs
        subst hs
        exact ⟨retryTag_not_terminal attempt, Or.inr ⟨attempt, rfl⟩⟩
      · simp [ha] at hs
    have hftr_mem : ∀ s ∈ (getAvailableModel (env attempt).1).2,
        s ∉ (["ready", "failed", "disabled"] : List String) ∧ IsSpecTag s := by
      intro s hs
      rw [hftr] at hs
      simp only [List.mem_cons, List.not_mem_nil, or_false] at hs
      rcases hs with h | h
      · subst h
        exact ⟨by decide, Or.inl (by decide)⟩
      · subst h
        rcases hftag2 with h | h | h | h | h <;> subst h <;>
          exact ⟨by decide, Or.inl (by decide)⟩
    cases hres : (getAvailableModel (env attempt).1).1 with
    | error e =>
      rw [checkGo_succ_fetchErr env attempt model writes f e hres]
      obtain ⟨hnr, hst, hrd, pre, htr, hpre, hall⟩ := ih (attempt + 1) model writes
      refine ⟨hnr, hst, hrd,
        (if 1 < attempt then ["retry_" ++ toString attempt] else []) ++
          ((getAvailableModel (env attempt).1).2 ++ pre), ?_, ?_, ?_⟩
      · show (if 1 < attempt then ["retry_" ++ toString attempt] else []) ++
          (getAvailableModel (env attempt).1).2 ++
          (checkGo env (attempt + 1) model writes f).trace =
          ((if 1 < attempt then ["retry_" ++ toString attempt] else []) ++
            ((getAvailableModel (env attempt).1).2 ++ pre)) ++
          [(checkGo env (attempt + 1) model writes f).status]
        rw [htr]
        simp only [List.append_assoc]
      · intro s hs
        rcases List.mem_append.1 hs with h | h
        · exact (hretry s h).1
        · rcases List.mem_append.1 h with h2 | h2
          · exact (hftr_mem s h2).1
          · exact hpre s h2
      · intro s hs
        rcases List.mem_append.1 hs with h | h
        · rcases List.mem_append.1 h with h2 | h2
          · exact (hretry s h2).2
          · exact (hftr_mem s h2).2
        · exact hall s h
    | ok name =>
      cases hpr : (testModelGeneration (env attempt).2 maxTestRetries).result with
      | some tag =>
        have htag : tag = "error_generation" ∨ tag = "error_parsing_response" ∨
            tag = "error_no_response" := by
          rcases probeGo_result_mem (env attempt).2 maxTestRetries maxTestRetries 1
            with h | h | h | h <;> rw [show probeGo (env attempt).2 maxTestRetries 1
              maxTestRetries = testModelGeneration (env attempt).2 maxTestRetries from rfl,
              hpr] at h
          · exact absurd h (by simp)
          · exact Or.inl (Option.some_inj.1 h)
          · exact Or.inr (Or.inl (Option.some_inj.1 h))
          · exact Or.inr (Or.inr (Option.some_inj.1 h))
        have htg_mem : ∀ s ∈ (["testing_generation", tag] : List String),
            s ∉ (["ready", "failed", "disabled"] : List String) ∧ IsSpecTag s := by
          intro s hs
          simp only [List.mem_cons, List.not_mem_nil, or_false] at hs
          rcases hs with h | h
          · subst h
            exact ⟨by decide, Or.inl (by decide)⟩
          · subst h
            rcases htag with h | h | h <;> subst h <;>
              exact ⟨by decide, Or.inl (by decide)⟩
        rw [checkGo_succ_probeFail env attempt model writes f name tag hres hpr]
        obtain ⟨hnr, hst, hrd, pre, htr, hpre, hall⟩ :=
          ih (attempt + 1) name (writes ++ [name])
        refine ⟨hnr, hst, hrd,
          (if 1 < attempt then ["retry_" ++ toString attempt] else []) ++
            ((getAvailableModel (env attempt).1).2 ++ (["testing_generation", tag] ++ pre)),
          ?_, ?_, ?_⟩
        · show (if 1 < attempt then ["retry_" ++ toString attempt] else []) ++
            (getAvailableModel (env attempt).1).2 ++ ["testing_generation", tag] ++
            (checkGo env (attempt + 1) name (writes ++ [name]) f).trace =
            ((if 1 < attempt then ["retry_" ++ toString attempt] else []) ++
              ((getAvailableModel (env attempt).1).2 ++ (["testing_generation", tag] ++ pre))) ++
            [(checkGo env (attempt + 1) name (writes ++ [name]) f).status]
          rw [htr]
          simp only [List.append_assoc, List.cons_append, List.nil_append]
        · intro s hs
          rcases List.mem_append.1 hs with h | h
          · exact (hretry s h).1
          · rcases List.mem_append.1 h with h2 | h2
            · exact (hftr_mem s h2).1
            · rcases List.mem_append.1 h2 with h3 | h3
              · exact (htg_mem s h3).1
              · exact hpre s h3
        · intro s hs
          rcases List.mem_append.1 hs with h | h
          · rcases List.mem_append.1 h with h2 | h2
            · rcases List.mem_append.1 h2 with h3 | h3
              · exact (hretry s h3).2
              · exact (hftr_mem s h3).2
            · exact (htg_mem s h2).2
          · exact hall s h
      | none =>
        rw [checkGo_succ_ready env attempt model writes f name hres hpr]
        refine ⟨rfl, Or.inl rfl, ?_,
          (if 1 < attempt then ["retry_" ++ toString attempt] else []) ++
            ((getAvailableModel (env attempt).1).2 ++ ["testing_generation"]),
          ?_, ?_, ?_⟩
        · intro h
          exact absurd (show ("ready" : String) = "failed" from h) (by decide)
        · show (if 1 < attempt then ["retry_" ++ toString attempt] else []) ++
            (getAvailableModel (env attempt).1).2 ++ ["testing_generation", "ready"] =
            ((if 1 < attempt then ["retry_" ++ toString attempt] else []) ++
              ((getAvailableModel (env attempt).1).2 ++ ["testing_generation"])) ++ ["ready"]
          simp only [List.append_assoc, List.cons_append, List.nil_append]
        · intro s hs
          rcases List.mem_append.1 hs with h | h
          · exact (hretry s h).1
          · rcases List.mem_append.1 h with h2 | h2
            · exact (hftr_mem s h2).1
            · have : s = "testing_generation" := by simpa using h2
              subst this
              decide
        · intro s hs
          rcases List.mem_append.1 hs with h | h
          · rcases List.mem_append.1 h with h2 | h2
            · exact (hretry s h2).2
            · exact (hftr_mem s h2).2
          · have h3 : s = "testing_generation" ∨ s = "ready" := by simpa using h
            rcases h3 with h3 | h3 <;> subst h3 <;> exact Or.inl (by decide)

/-- Head of the retry loop's status trace: every iteration emits its
retry tag (empty on the first attempt) and then the fetcher's statuses,
whose first element is `"checking_models"`. -/
theorem checkGo_trace_head (env : Nat → FetchHttp × (Nat → ProbeHttp))
    (attempt : Nat) (model : String) (writes : List String) (fuel : Nat) :
    ∃ t, (checkGo env attempt model writes (fuel + 1)).trace =
      (if 1 < attempt then ["retry_" ++ toString attempt] else []) ++
        ((getAvailableModel (env attempt).1).2 ++ t) := by
  cases hres : (getAvailableModel (env attempt).1).1 with
  | error e =>
    rw [checkGo_succ_fetchErr env attempt model writes fuel e hres]
    exact ⟨(checkGo env (attempt + 1) model writes fuel).trace,
      by simp [List.append_assoc]⟩
  | ok name =>
    cases hpr : (testModelGeneration (env attempt).2 maxTestRetries).result with
    | some tag =>
      rw [checkGo_succ_probeFail env attempt model writes fuel name tag hres hpr]
      exact ⟨["testing_generation", tag] ++
        (checkGo env (attempt + 1) name (writes ++ [name]) fuel).trace,
        by simp [List.append_assoc]⟩
    | none =>
      rw [checkGo_succ_ready env attempt model writes fuel name hres hpr]
      exact ⟨["testing_generation", "ready"], by simp [List.append_assoc]⟩

/-- A run in which every fetch fails: the machine exhausts its ceiling and
settles in `"failed"`, never touching `modelReady`, `modelNeverReady` or
`ollamaModel`. -/
theorem checkGo_fetchFail (env : Nat → FetchHttp × (Nat → ProbeHttp))
    (hf : ∀ i, ∃ e, (getAvailableModel (env i).1).1 = Except.error e) :
    ∀ (fuel attempt : Nat) (model : String) (writes : List String),
      (checkGo env attempt model writes fuel).status = "failed" ∧
      (checkGo env attempt model writes fuel).ready = false ∧
      (checkGo env attempt model writes fuel).neverReady = false ∧
      (checkGo env attempt model writes fuel).model = model ∧
      (checkGo env attempt model writes fuel).modelWrites = writes := by
  intro fuel
  induction fuel with
  | zero => intro attempt model writes; exact ⟨rfl, rfl, rfl, rfl, rfl⟩
  | succ f ih =>
    intro attempt model writes
    obtain ⟨e, he⟩ := hf attempt
    rw [checkGo_succ_fetchErr env attempt model writes f e he]
    exact ih (attempt + 1) model writes

/-- A run in which every fetch returns `name` and every probe fails
terminally: the machine settles in `"failed"`, yet `ollamaModel` holds
`name` and was assigned once per attempt. -/
theorem checkGo_fetchOkProbeFail (env : Nat → FetchHttp × (Nat → ProbeHttp))
    (name : String)
    (hf : ∀ i, (getAvailableModel (env i).1).1 = Except.ok name)
    (hp : ∀ i, ∃ tag, (testModelGeneration (env i).2 maxTestRetries).result = some tag) :
    ∀ (fuel attempt : Nat) (model : String) (writes : List String),
      (checkGo env attempt model writes fuel).status = "failed" ∧
      (checkGo env attempt model writes fuel).ready = false ∧
      (checkGo env attempt model writes fuel).neverReady = false ∧
      (checkGo env attempt model writes fuel).model = (if fuel = 0 then model else name) ∧
      (checkGo env attempt model writes fuel).modelWrites =
        writes ++ List.replicate fuel name := by
  intro fuel
  induction fuel with
  | zero =>
    intro attempt model writes
    exact ⟨rfl, rfl, rfl, by simp [checkGo], by simp [checkGo]⟩
  | succ f ih =>
    intro attempt model writes
    obtain ⟨tag, htag⟩ := hp attempt
    rw [checkGo_succ_probeFail env attempt model writes f name tag (hf attempt) htag]
    obtain ⟨h1, h2, h3, h4, h5⟩ := ih (attempt + 1) name (writes ++ [name])
    refine ⟨h1, h2, h3, ?_, ?_⟩
    · show (checkGo env (attempt + 1) name (writes ++ [name]) f).model =
        if f + 1 = 0 then model else name
      rw [h4]
      simp
    · show (checkGo env (attempt + 1) name (writes ++ [name]) f).modelWrites =
        writes ++ List.replicate (f + 1) name
      rw [h5]
      simp [List.replicate_succ, List.append_assoc]

/-- With the probe ceiling of main.go, an all-transport-error probe run
fails terminally with status tag `"error_generation"`. -/
theorem probe_const_transport_fails :
    (testModelGeneration (fun _ => ProbeHttp.transportError) maxTestRetries).result =
      some "error_generation" := by
  show (probeGo (fun _ => ProbeHttp.transportError) maxTestRetries 1 maxTestRetries).result =
    some "error_generation"
  rw [probeGo_allFail (fun _ => ProbeHttp.transportError) maxTestRetries
    (fun _ => (by decide : probeAttemptFail ProbeHttp.transportError ≠ none))
    maxTestRetries 1 (Nat.add_comm 1 maxTestRetries) (by decide)]
  rfl

/-! ### Projection equations of `checkModelReady` (cheap, definitional) -/

theorem checkModelReady_true_status (env : Nat → FetchHttp × (Nat → ProbeHttp)) :
    (checkModelReady true env).status = (checkGo env 1 "" [] maxRetries).status := rfl

theorem checkModelReady_true_ready (env : Nat → FetchHttp × (Nat → ProbeHttp)) :
    (checkModelReady true env).ready = (checkGo env 1 "" [] maxRetries).ready := rfl

theorem checkModelReady_true_neverReady (env : Nat → FetchHttp × (Nat → ProbeHttp)) :
    (checkModelReady true env).neverReady = (checkGo env 1 "" [] maxRetries).neverReady := rfl

theorem checkModelReady_true_model (env : Nat → FetchHttp × (Nat → ProbeHttp)) :
    (checkModelReady true env).model = (checkGo env 1 "" [] maxRetries).model := rfl

theorem checkModelReady_true_modelWrites (env : Nat → FetchHttp × (Nat → ProbeHttp)) :
    (checkModelReady true env).modelWrites = (checkGo env 1 "" [] maxRetries).modelWrites := rfl

theorem checkModelReady_true_trace (env : Nat → FetchHttp × (Nat → ProbeHttp)) :
    (checkModelReady true env).trace = "starting" :: (checkGo env 1 "" [] maxRetries).trace := rfl

/-- An enabled run in which every fetch fails, lifted to `checkModelReady`. -/
theorem checkModelReady_fetchFail (env : Nat → FetchHttp × (Nat → ProbeHttp))
    (hf : ∀ i, ∃ e, (getAvailableModel (env i).1).1 = Except.error e) :
    (checkModelReady true env).status = "failed" ∧
    (checkModelReady true env).ready = false ∧
    (checkModelReady true env).neverReady = false ∧
    (checkModelReady true env).model = "" ∧
    (checkModelReady true env).modelWrites = [] := by
  rw [checkModelReady_true_status, checkModelReady_true_ready,
    checkModelReady_true_neverReady, checkModelReady_true_model,
    checkModelReady_true_modelWrites]
  exact checkGo_fetchFail env hf maxRetries 1 "" []

/-- An enabled run in which every fetch returns `name` and every probe
fails, lifted to `checkModelReady`: terminal `"failed"`, yet the model
name is set and was written once per outer attempt. -/
theorem checkModelReady_fetchOkProbeFail (env : Nat → FetchHttp × (Nat → ProbeHttp))
    (name : String)
    (hf : ∀ i, (getAvailableModel (env i).1).1 = Except.ok name)
    (hp : ∀ i, ∃ tag, (testModelGeneration (env i).2 maxTestRetries).result = some tag) :
    (checkModelReady true env).status = "failed" ∧
    (checkModelReady true env).ready = false ∧
    (checkModelReady true env).neverReady = false ∧
    (checkModelReady true env).model = name ∧
    (checkModelReady true env).modelWrites = List.replicate maxRetries name := by
  rw [checkModelReady_true_status, checkModelReady_true_ready,
    checkModelReady_true_neverReady, checkModelReady_true_model,
    checkModelReady_true_modelWrites]
  obtain ⟨h1, h2, h3, h4, h5⟩ := checkGo_fetchOkProbeFail env name hf hp maxRetries 1 "" []
  refine ⟨h1, h2, h3, ?_, ?_⟩
  · rw [h4, if_neg (by decide)]
  · rw [h5, List.nil_append]

/--
**C2** (corrected): counterexample to the claim as stated.  With the
upstream enabled but every fetch a transport error, the Readiness State
Machine exhausts its retry ceiling and settles in `"failed"` — yet
`PermanentlyUnavailable` (`modelNeverReady`) is still `false`: the code
never sets the flag on retry exhaustion, so the claimed if-and-only-if
with "Disabled or terminal Failed" is false and subsequent messages do
not draw from the unavailable table.
-/
theorem c2_counterexample :
    (checkModelReady true (fun _ => (FetchHttp.transportError,
        fun _ => ProbeHttp.transportError))).status = "failed" ∧
    (checkModelReady true (fun _ => (FetchHttp.transportError,
        fun _ => ProbeHttp.transportError))).neverReady = false :=
  ⟨(checkModelReady_fetchFail (fun _ => (FetchHttp.transportError,
      fun _ => ProbeHttp.transportError)) (fun _ => ⟨.connErr, rfl⟩)).1,
   (checkModelReady_fetchFail (fun _ => (FetchHttp.transportError,
      fun _ => ProbeHttp.transportError)) (fun _ => ⟨.connErr, rfl⟩)).2.2.1⟩

/--
**C2** (amended): `PermanentlyUnavailable` is true iff the readiness
state is `Disabled` — not also on terminal `Failed`.  After the machine
exhausts its retry ceiling and settles in `Failed`, the flag remains
`false`, and every subsequent inbound message yields exactly one
waiting-table message (not an unavailable-table one), with the relay
never invoked.
-/
theorem c2_unavailable_iff_disabled :
    (∀ (enabled : Bool) (env : Nat → FetchHttp × (Nat → ProbeHttp)),
      (checkModelReady enabled env).neverReady = true ↔
        (checkModelReady enabled env).status = "disabled") ∧
    (∀ (env : Nat → FetchHttp × (Nat → ProbeHttp)) (idx : Nat)
        (relayFn : String → RelayResult) (msg : String),
      (checkModelReady true env).status = "failed" →
        (handleMessage (checkModelReady true env).neverReady
            (checkModelReady true env).ready idx relayFn msg).relayInvoked = false ∧
        ∃ m, (handleMessage (checkModelReady true env).neverReady
            (checkModelReady true env).ready idx relayFn msg).sent = [m] ∧
          m ∈ waitingMessages) := by
  constructor
  · intro enabled env
    cases enabled with
    | false => exact ⟨fun _ => rfl, fun _ => rfl⟩
    | true =>
      obtain ⟨hnr, hst, _, _⟩ := checkGo_shape env maxRetries 1 "" []
      rw [checkModelReady_true_neverReady, checkModelReady_true_status]
      constructor
      · intro h
        rw [hnr] at h
        exact absurd h (by decide)
      · intro h
        rcases hst with h2 | h2 <;> rw [h2] at h <;> exact absurd h (by decide)
  · intro env idx relayFn msg h
    obtain ⟨hnr, _, hrd, _⟩ := checkGo_shape env maxRetries 1 "" []
    rw [checkModelReady_true_status] at h
    rw [checkModelReady_true_neverReady, checkModelReady_true_ready, hnr, hrd h]
    exact ⟨rfl, pick waitingMessages idx, rfl, pick_mem _ _ idx⟩

/-- Witness for C2 (amended): after the concrete all-fetch-failure run
settles in `"failed"`, an inbound `"hi"` gets one waiting-table message
and no relay call. -/
theorem c2_witness :
    (handleMessage (checkModelReady true (fun _ => (FetchHttp.transportError,
          fun _ => ProbeHttp.transportError))).neverReady
        (checkModelReady true (fun _ => (FetchHttp.transportError,
          fun _ => ProbeHttp.transportError))).ready 0
        (fun _ => ⟨[], none, false⟩) "hi").relayInvoked = false ∧
    ∃ m, (handleMessage (checkModelReady true (fun _ => (FetchHttp.transportError,
          fun _ => ProbeHttp.transportError))).neverReady
        (checkModelReady true (fun _ => (FetchHttp.transportError,
          fun _ => ProbeHttp.transportError))).ready 0
        (fun _ => ⟨[], none, false⟩) "hi").sent = [m] ∧
      m ∈ waitingMessages :=
  c2_unavailable_iff_disabled.2 (fun _ => (FetchHttp.transportError,
      fun _ => ProbeHttp.transportError)) 0 (fun _ => ⟨[], none, false⟩) "hi"
    (checkModelReady_fetchFail (fun _ => (FetchHttp.transportError,
        fun _ => ProbeHttp.transportError)) (fun _ => ⟨.connErr, rfl⟩)).1

/-- When the fetcher fails, its trace is `"checking_models"` followed by
one of the four fetch-error tags. -/
theorem getAvailableModel_err_trace (f : FetchHttp) (e : FetchErr)
    (h : (getAvailableModel f).1 = .error e) :
    ∃ tag, (getAvailableModel f).2 = ["checking_models", tag] ∧
      tag ∈ (["error_connecting", "error_api", "error_parsing",
        "no_models"] : List String) := by
  cases f with
  | transportError => exact ⟨"error_connecting", rfl, by decide⟩
  | reply status body =>
    by_cases hs : status = 200
    · subst hs
      cases body with
      | malformed => exact ⟨"error_parsing", rfl, by decide⟩
      | object ms =>
        cases ms with
        | nil => exact ⟨"no_models", rfl, by decide⟩
        | cons m rest =>
          rw [show (getAvailableModel (.reply 200 (.object (m :: rest)))).1 =
            .ok m.name from rfl] at h
          exact Except.noConfusion h
    · refine ⟨"error_api", ?_, by decide⟩
      simp [getAvailableModel, hs]

/-- When the fetcher succeeds, its trace is exactly `"checking_models"`,
`"model_found"`. -/
theorem getAvailableModel_ok_trace (f : FetchHttp) (name : String)
    (h : (getAvailableModel f).1 = .ok name) :
    (getAvailableModel f).2 = ["checking_models", "model_found"] := by
  cases f with
  | transportError => exact absurd h (by simp [getAvailableModel])
  | reply status body =>
    by_cases hs : status = 200
    · subst hs
      cases body with
      | malformed => exact absurd h (by simp [getAvailableModel])
      | object ms =>
        cases ms with
        | nil => exact absurd h (by simp [getAvailableModel])
        | cons m rest => rfl
    · exact absurd h (by simp [getAvailableModel, hs])

/-- The status trace of every run of the retry loop follows the claimed
visit order: per iteration a retry tag, then `CheckingModels`, then
`ModelFound` or a fetch-error tag, probing and looping as described,
ending in `Ready` or `Failed`. -/
theorem checkGo_cycleTrace (env : Nat → FetchHttp × (Nat → ProbeHttp)) :
    ∀ (fuel attempt : Nat) (model : String) (writes : List String),
      CycleTrace attempt (checkGo env attempt model writes fuel).trace := by
  intro fuel
  induction fuel with
  | zero =>
    intro attempt model writes
    exact CycleTrace.failed attempt
  | succ f ih =>
    intro attempt model writes
    cases hres : (getAvailableModel (env attempt).1).1 with
    | error e =>
      obtain ⟨tag, hftr, htag⟩ := getAvailableModel_err_trace (env attempt).1 e hres
      rw [checkGo_succ_fetchErr env attempt model writes f e hres]
      show CycleTrace attempt ((if 1 < attempt then ["retry_" ++ toString attempt]
        else []) ++ (getAvailableModel (env attempt).1).2 ++
        (checkGo env (attempt + 1) model writes f).trace)
      rw [hftr]
      simp only [List.append_assoc, List.cons_append, List.nil_append]
      exact CycleTrace.fetchErr attempt tag _ htag (ih (attempt + 1) model writes)
    | ok name =>
      have hftr := getAvailableModel_ok_trace (env attempt).1 name hres
      cases hpr : (testModelGeneration (env attempt).2 maxTestRetries).result with
      | some tag =>
        have htag : tag ∈ (["error_generation", "error_parsing_response",
            "error_no_response"] : List String) := by
          rcases probeGo_result_mem (env attempt).2 maxTestRetries maxTestRetries 1
            with h | h | h | h <;> rw [show probeGo (env attempt).2 maxTestRetries 1
              maxTestRetries = testModelGeneration (env attempt).2 maxTestRetries from rfl,
              hpr] at h
          · exact absurd h (by simp)
          · rw [Option.some_inj.1 h]; decide
          · rw [Option.some_inj.1 h]; decide
          · rw [Option.some_inj.1 h]; decide
        rw [checkGo_succ_probeFail env attempt model writes f name tag hres hpr]
        show CycleTrace attempt ((if 1 < attempt then ["retry_" ++ toString attempt]
          else []) ++ (getAvailableModel (env attempt).1).2 ++
          ["testing_generation", tag] ++
          (checkGo env (attempt + 1) name (writes ++ [name]) f).trace)
        rw [hftr]
        simp only [List.append_assoc, List.cons_append, List.nil_append]
        exact CycleTrace.probeErr attempt tag _ htag
          (ih (attempt + 1) name (writes ++ [name]))
      | none =>
        rw [checkGo_succ_ready env attempt model writes f name hres hpr]
        show CycleTrace attempt ((if 1 < attempt then ["retry_" ++ toString attempt]
          else []) ++ (getAvailableModel (env attempt).1).2 ++
          ["testing_generation", "ready"])
        rw [hftr]
        simp only [List.append_assoc, List.cons_append, List.nil_append]
        exact CycleTrace.ready attempt

/--
**C5** (corrected): counterexample to the claim as stated.  On any
enabled run (here: every fetch a transport error), the status trace
passes through the tag `"starting"`, which is not a tag of the spec's
ReadinessState enumeration — the machine does not pass only through
enumeration tags.
-/
theorem c5_counterexample :
    "starting" ∈ fullTrace true (fun _ => (FetchHttp.transportError,
        fun _ => ProbeHttp.transportError)) ∧
    ¬ IsSpecTag "starting" := by
  constructor
  · show "starting" ∈ "initializing" :: "starting" ::
      (checkGo (fun _ => (FetchHttp.transportError, fun _ => ProbeHttp.transportError))
        1 "" [] maxRetries).trace
    exact List.mem_cons_of_mem _ (List.mem_cons_self _ _)
  · rintro (h | ⟨n, hn⟩)
    · exact absurd h (by decide)
    · have hd : "starting".data = "retry_".data ++ (toString n).data := by
        rw [← String.data_append, ← hn]
      rw [show "retry_".data = ['r', 'e', 't', 'r', 'y', '_'] from rfl,
        show "starting".data = ['s', 't', 'a', 'r', 't', 'i', 'n', 'g'] from rfl] at hd
      simp only [List.cons_append] at hd
      injection hd with h1 h2
      exact absurd h1 (by decide)

/--
**C5** (amended): for every sequence of fetch/probe outcomes the status
trace is a sequence of ReadinessState enumeration tags plus one extra
transient `"starting"` tag (emitted right after `Initializing` on every
enabled run, before `CheckingModels`); the trace ends in exactly one of
`Ready`, `Failed`, `Disabled`, and that terminal tag appears only as the
final element — once reached, no further transition occurs.  Moreover
every enabled run's trace is `Initializing`, `"starting"`, followed by a
run of the claimed visit order (`CycleTrace`): per iteration a retry
tag, then `CheckingModels`, then `ModelFound` or a fetch-error tag, then
(on `ModelFound`) `TestingGeneration` and either terminal `Ready` or a
probe-error tag and the retry loop again, `Failed` on exhaustion.  A
disabled run is exactly `Initializing, Disabled`.
-/
theorem c5_trace_shape :
    (∀ (enabled : Bool) (env : Nat → FetchHttp × (Nat → ProbeHttp)),
      ∃ pre, fullTrace enabled env = pre ++ [(checkModelReady enabled env).status] ∧
        (checkModelReady enabled env).status ∈ (["ready", "failed", "disabled"] : List String) ∧
        (∀ s ∈ pre, s ∉ (["ready", "failed", "disabled"] : List String)) ∧
        (∀ s ∈ fullTrace enabled env, IsSpecTag s ∨ s = "starting")) ∧
    (∀ env : Nat → FetchHttp × (Nat → ProbeHttp),
      (fullTrace true env).take 3 = ["initializing", "starting", "checking_models"]) ∧
    (∀ env : Nat → FetchHttp × (Nat → ProbeHttp),
      fullTrace false env = ["initializing", "disabled"]) ∧
    (∀ env : Nat → FetchHttp × (Nat → ProbeHttp),
      ∃ t, fullTrace true env = "initializing" :: "starting" :: t ∧ CycleTrace 1 t) := by
  refine ⟨?_, ?_, fun env => rfl, fun env =>
    ⟨(checkGo env 1 "" [] maxRetries).trace, rfl, checkGo_cycleTrace env maxRetries 1 "" []⟩⟩
  · intro enabled env
    cases enabled with
    | false =>
      refine ⟨["initializing"], rfl, ?_, ?_, ?_⟩
      · show ("disabled" : String) ∈ _
        decide
      · intro s hs
        have : s = "initializing" := by simpa using hs
        subst this
        decide
      · intro s hs
        have h2 : s = "initializing" ∨ s = "disabled" := by
          simpa using (show s ∈ (["initializing", "disabled"] : List String) from hs)
        rcases h2 with h | h <;> subst h <;> exact Or.inl (Or.inl (by decide))
    | true =>
      obtain ⟨_, hst, _, pre, htr, hpre, hall⟩ := checkGo_shape env maxRetries 1 "" []
      have hft : fullTrace true env = "initializing" :: "starting" ::
          (checkGo env 1 "" [] maxRetries).trace := rfl
      refine ⟨"initializing" :: "starting" :: pre, ?_, ?_, ?_, ?_⟩
      · rw [hft, checkModelReady_true_status, htr]
        simp [List.cons_append]
      · rw [checkModelReady_true_status]
        rcases hst with h | h <;> rw [h] <;> decide
      · intro s hs
        rcases List.mem_cons.1 hs with h | hs2
        · subst h; decide
        · rcases List.mem_cons.1 hs2 with h | hs3
          · subst h; decide
          · exact hpre s hs3
      · intro s hs
        rw [hft] at hs
        rcases List.mem_cons.1 hs with h | hs2
        · subst h
          exact Or.inl (Or.inl (by decide))
        · rcases List.mem_cons.1 hs2 with h | hs3
          · subst h
            exact Or.inr rfl
          · exact Or.inl (hall s hs3)
  · intro env
    obtain ⟨t, ht⟩ := checkGo_trace_head env 1 "" [] 99
    obtain ⟨ftag, hftr, _⟩ := getAvailableModel_trace (env 1).1
    have hft : fullTrace true env = "initializing" :: "starting" ::
        (checkGo env 1 "" [] (99 + 1)).trace := rfl
    rw [hft, ht, hftr]
    rfl

/--
**C9** (corrected): counterexample to the claim as stated.  With every
fetch returning `"m1"` and every probe failing, the run never reaches
`Ready` (it settles in `Failed`), yet the chosen model name does not
remain at its initial unset value: `ollamaModel` is `"m1"`, because the
code assigns it right after each successful fetch, before the probe.
-/
theorem c9_counterexample :
    (checkModelReady true (fun _ => (FetchHttp.reply 200 (FetchBody.object [⟨"m1"⟩]),
        fun _ => ProbeHttp.transportError))).status = "failed" ∧
    (checkModelReady true (fun _ => (FetchHttp.reply 200 (FetchBody.object [⟨"m1"⟩]),
        fun _ => ProbeHttp.transportError))).model = "m1" ∧
    ("m1" : String) ≠ "" := by
  have h := checkModelReady_fetchOkProbeFail
    (fun _ => (FetchHttp.reply 200 (FetchBody.object [⟨"m1"⟩]),
      fun _ => ProbeHttp.transportError)) "m1" (fun _ => rfl)
    (fun _ => ⟨"error_generation", probe_const_transport_fails⟩)
  exact ⟨h.1, h.2.2.2.1, by decide⟩

/--
**C9** (amended): the chosen model name is written at each successful
fetch — when the run reaches `ModelFound`, before the generation probe —
not only at the moment readiness reaches `Ready`.  While no fetch has
succeeded the name does remain at its initial unset value; but a run
whose every fetch succeeds and every probe fails ends in `Failed` with
the name set (written once per attempt); and on a first-attempt success
the run ends `Ready` with the name written exactly once.
-/
theorem c9_model_written_at_fetch :
    (∀ env : Nat → FetchHttp × (Nat → ProbeHttp),
      (∀ i, ∃ e, (getAvailableModel (env i).1).1 = Except.error e) →
      (checkModelReady true env).model = "" ∧
        (checkModelReady true env).modelWrites = []) ∧
    (∀ (name : String) (env : Nat → FetchHttp × (Nat → ProbeHttp)),
      (∀ i, (getAvailableModel (env i).1).1 = Except.ok name) →
      (∀ i, ∃ tag, (testModelGeneration (env i).2 maxTestRetries).result = some tag) →
      (checkModelReady true env).status = "failed" ∧
        (checkModelReady true env).ready = false ∧
        (checkModelReady true env).model = name ∧
        (checkModelReady true env).modelWrites = List.replicate maxRetries name) ∧
    (∀ (name : String) (env : Nat → FetchHttp × (Nat → ProbeHttp)),
      (getAvailableModel (env 1).1).1 = Except.ok name →
      (testModelGeneration (env 1).2 maxTestRetries).result = none →
      (checkModelReady true env).status = "ready" ∧
        (checkModelReady true env).ready = true ∧
        (checkModelReady true env).model = name ∧
        (checkModelReady true env).modelWrites = [name]) := by
  refine ⟨?_, ?_, ?_⟩
  · intro env hf
    obtain ⟨_, _, _, h4, h5⟩ := checkModelReady_fetchFail env hf
    exact ⟨h4, h5⟩
  · intro name env hf hp
    obtain ⟨h1, h2, _, h4, h5⟩ := checkModelReady_fetchOkProbeFail env name hf hp
    exact ⟨h1, h2, h4, h5⟩
  · intro name env hok hpr
    have h99 : checkGo env 1 "" [] maxRetries =
        ⟨"ready", (if 1 < 1 then ["retry_" ++ toString 1] else []) ++
          (getAvailableModel (env 1).1).2 ++ ["testing_generation", "ready"], true,
          false, name, [] ++ [name]⟩ :=
      checkGo_succ_ready env 1 "" [] 99 name hok hpr
    rw [checkModelReady_true_status, checkModelReady_true_ready,
      checkModelReady_true_model, checkModelReady_true_modelWrites, h99]
    exact ⟨rfl, rfl, rfl, rfl⟩

/-- Witness for C9 (amended): the concrete run whose fetches return
`"m1"` and whose probes all fail ends `Failed` with the model name set to
`"m1"` and one write per outer attempt. -/
theorem c9_witness :
    (checkModelReady true (fun _ => (FetchHttp.reply 200 (FetchBody.object [⟨"m1"⟩]),
        fun _ => ProbeHttp.transportError))).status = "failed" ∧
    (checkModelReady true (fun _ => (FetchHttp.reply 200 (FetchBody.object [⟨"m1"⟩]),
        fun _ => ProbeHttp.transportError))).ready = false ∧
    (checkModelReady true (fun _ => (FetchHttp.reply 200 (FetchBody.object [⟨"m1"⟩]),
        fun _ => ProbeHttp.transportError))).model = "m1" ∧
    (checkModelReady true (fun _ => (FetchHttp.reply 200 (FetchBody.object [⟨"m1"⟩]),
        fun _ => ProbeHttp.transportError))).modelWrites =
      List.replicate maxRetries "m1" :=
  c9_model_written_at_fetch.2.1 "m1"
    (fun _ => (FetchHttp.reply 200 (FetchBody.object [⟨"m1"⟩]),
      fun _ => ProbeHttp.transportError)) (fun _ => rfl)
    (fun _ => ⟨"error_generation", probe_const_transport_fails⟩)

end CubbyChat
